import Mathlib

/-!
Verification of the Apiritif scenario compiler and test-runner supervisor
(`bzt/modules/apiritif.py`): a shallow embedding of the body-classification,
header-merge, assertion-lowering, method-naming, setup-generation, `prepare`
and `check` logic, followed by theorems settling the specification claims.

Conventions of the embedding:
* Python dictionaries are insertion-ordered association lists
  (`List (String × β)`); `dUpd` is a single key write (replace first
  occurrence in place or append), `dUpdAll` is `dict.update`, and
  `List.lookup` is `dict.get` (first occurrence).
* Python values that may appear as a request body are modelled by `PyVal`.
* Fallible code (`raise TaurusConfigError`, uncaught Python exceptions)
  is modelled with `Except`.
* Results of `priority_option`/`dehumanize_time` (defined in `bzt.utils`,
  outside this repository's sources) are carried as already-resolved,
  already-rendered fields of `HTTPRequest`; no claim depends on them.
-/

/-- Python values, as far as the compiler inspects them: strings, ints,
booleans, `None`, dicts (string keys, as produced by the YAML config) and
lists.  Mirrors the `isinstance` checks in `_add_url_request`. -/
inductive PyVal where
  | str (s : String)
  | int (n : Int)
  | bool (b : Bool)
  | none
  | dict (entries : List (String × PyVal))
  | list (elems : List PyVal)

/-- The Python type of a value, for rendering `type(x)` in error messages. -/
inductive PyType where
  | str
  | int
  | bool
  | noneType
  | dict
  | list
deriving DecidableEq, Repr

def PyVal.typeOf : PyVal → PyType
  | .str _ => .str
  | .int _ => .int
  | .bool _ => .bool
  | .none => .noneType
  | .dict _ => .dict
  | .list _ => .list

/-- Rendering of `str(type(x))` (CPython 3 form `<class 'int'>`). -/
def PyType.render : PyType → String
  | .str => "<class \x27str\x27>"
  | .int => "<class \x27int\x27>"
  | .bool => "<class \x27bool\x27>"
  | .noneType => "<class \x27NoneType\x27>"
  | .dict => "<class \x27dict\x27>"
  | .list => "<class \x27list\x27>"

/-- Python truthiness (`bool(x)`) for the values of `PyVal`: empty
strings/containers, zero, `False` and `None` are falsy. -/
def PyVal.truthy : PyVal → Bool
  | .str s => !s.data.isEmpty
  | .int n => !(n == 0)
  | .bool b => b
  | .none => false
  | .dict es => !es.isEmpty
  | .list es => !es.isEmpty

def PyVal.isDict : PyVal → Bool
  | .dict _ => true
  | _ => false

def PyVal.isList : PyVal → Bool
  | .list _ => true
  | _ => false

def PyVal.isStr : PyVal → Bool
  | .str _ => true
  | _ => false

/-- `str.lower()` (ASCII range, which covers header names and HTTP methods). -/
def pyLower (s : String) : String := ⟨s.data.map Char.toLower⟩

/-- Python whitespace for `str.strip()`: space, tab, LF, CR, FF, VT. -/
def pySpace (c : Char) : Bool :=
  c = ' ' || c = '\t' || c = '\n' || c = '\r' || c = '\x0b' || c = '\x0c'

/-- `str.strip()`: drop leading and trailing whitespace. -/
def pyStrip (s : String) : String :=
  ⟨((s.data.dropWhile pySpace).reverse.dropWhile pySpace).reverse⟩

/-- The apostrophe character, Python's preferred string-repr quote. -/
def quoteChar : Char := Char.ofNat 39

/-- CPython quote choice for `repr(str)`: single quotes, unless the string
contains a single quote and no double quote. -/
def reprQuote (s : List Char) : Char :=
  if s.contains quoteChar && !(s.contains '"') then '"' else quoteChar

/-- Escaping of one character inside `repr(str)` (printable-ASCII scope). -/
def reprEscChar (q c : Char) : List Char :=
  if c = '\\' then ['\\', '\\']
  else if c = '\n' then ['\\', 'n']
  else if c = '\r' then ['\\', 'r']
  else if c = '\t' then ['\\', 't']
  else if c = q then ['\\', q]
  else [c]

/-- `repr` of a Python string (printable-ASCII scope). -/
def pyReprStr (s : String) : String :=
  let q := reprQuote s.data
  ⟨q :: (s.data.flatMap (reprEscChar q)) ++ [q]⟩

mutual

/-- `repr(x)` for the modelled Python values. -/
def pyRepr : PyVal → String
  | .str s => pyReprStr s
  | .int n => toString n
  | .bool b => if b then "True" else "False"
  | .none => "None"
  | .dict es => "\x7b" ++ String.intercalate ", " (pyReprEntries es) ++ "\x7d"
  | .list es => "[" ++ String.intercalate ", " (pyReprElems es) ++ "]"

def pyReprEntries : List (String × PyVal) → List String
  | [] => []
  | (k, v) :: rest => (pyReprStr k ++ ": " ++ pyRepr v) :: pyReprEntries rest

def pyReprElems : List PyVal → List String
  | [] => []
  | v :: rest => pyRepr v :: pyReprElems rest

end

/-- `str(x)` (the `%s` conversion): strings render bare, everything else as
its `repr`. -/
def pyStr : PyVal → String
  | .str s => s
  | v => pyRepr v

/-- Substring containment (`needle in hay` on Python strings). -/
def containsSub (needle hay : String) : Prop := needle.data <:+: hay.data

instance (needle hay : String) : Decidable (containsSub needle hay) := by
  unfold containsSub; infer_instance

/-- Lexicographic order on strings via their character lists (the order the
nose runner uses to sort test-method names). -/
def strLt (a b : String) : Prop := a.data < b.data

instance (a b : String) : Decidable (strLt a b) := by
  unfold strLt; infer_instance

/-- One Python-dict key write: replace the first occurrence of the key in
place, or append a fresh entry. -/
def dUpd {β : Type} (d : List (String × β)) (k : String) (v : β) :
    List (String × β) :=
  match d with
  | [] => [(k, v)]
  | (k', v') :: rest =>
    if k' = k then (k, v) :: rest else (k', v') :: dUpd rest k v

/-- `dict.update`: fold the entries of `l` into `d`, left to right. -/
def dUpdAll {β : Type} (d l : List (String × β)) : List (String × β) :=
  l.foldl (fun acc kv => dUpd acc kv.1 kv.2) d

/-! ## Test Runner Supervisor: `ApiritifExecutor.check` -/

/-- The `ToolError` message built in `ApiritifExecutor.check`:
`"Nose %s (%s) has failed with retcode %s \n %s" % (label, classname,
ret_code, std_err.strip())`. -/
def checkErrMsg (label clsName : String) (retCode : Int) (stdErr : String) :
    String :=
  "Nose " ++ label ++ " (" ++ clsName ++ ") has failed with retcode " ++
    toString retCode ++ " \n " ++ pyStrip stdErr

/-- `ApiritifExecutor.check`: poll result `none` means the worker is still
running (`False`), exit code `0` means finished (`True`), any other exit
code raises a `ToolError` whose message carries the code and the captured
(stripped) stderr. -/
def check (label clsName : String) (pollResult : Option Int)
    (stdErr : String) : Except String Bool :=
  match pollResult with
  | Option.none => .ok false
  | Option.some retCode =>
    if retCode != 0 then .error (checkErrMsg label clsName retCode stdErr)
    else .ok true

/-! ## Scenario Compiler: data model -/

/-- Constants `Scenario.FIELD_BODY` / `FIELD_HEADERS` / `FIELD_RESP_CODE`
from `bzt.engine` (an external collaborator of this module). -/
def FIELD_BODY : String := "body"

def FIELD_HEADERS : String := "headers"

def FIELD_RESP_CODE : String := "http-code"

/-- A plain `assert` entry once `ensure_is_dict` has run: the config keys
the code reads.  `none` in an `Option` field models an absent key. -/
structure AssertionCfg where
  contains : Option PyVal
  subject : Option String
  regexp : Option Bool
  negated : Option Bool

/-- A raw `assert` list entry: `ensure_is_dict(assertions, idx, "contains")`
turns a scalar entry into a dict holding the scalar under `"contains"`. -/
inductive RawAssertion where
  | scalar (v : PyVal)
  | cfg (a : AssertionCfg)

/-- `ensure_is_dict(assertions, idx, "contains")`. -/
def ensureIsDict : RawAssertion → AssertionCfg
  | .scalar v => { contains := some v, subject := none, regexp := none, negated := none }
  | .cfg a => a

/-- An `assert-jsonpath` entry after `ensure_is_dict(..., "jsonpath")`. -/
structure JsonPathCfg where
  jsonpath : Option PyVal
  expectedValue : Option PyVal
  invert : Option Bool

inductive RawJsonPath where
  | scalar (v : PyVal)
  | cfg (a : JsonPathCfg)

def ensureIsDictJsonPath : RawJsonPath → JsonPathCfg
  | .scalar v => { jsonpath := some v, expectedValue := none, invert := none }
  | .cfg a => a

/-- An `assert-xpath` entry after `ensure_is_dict(..., "xpath")`. -/
structure XPathCfg where
  xpath : Option PyVal
  invert : Option Bool

inductive RawXPath where
  | scalar (v : PyVal)
  | cfg (a : XPathCfg)

def ensureIsDictXPath : RawXPath → XPathCfg
  | .scalar v => { xpath := some v, invert := none }
  | .cfg a => a

/-- A `bzt.requests_model.HTTPRequest`, restricted to the fields
`_add_url_request` reads.  `timeoutRendered`, `allowRedirectsRendered` and
`thinkTime` carry the already-resolved results of
`priority_option`/`dehumanize_time` (computed in `bzt.utils`, outside this
repository's sources), rendered as the `%r`/`%s` text the generator splices
into the emitted statement. -/
structure HTTPRequest where
  method : String
  url : String
  headers : List (String × String)
  body : PyVal
  timeoutRendered : String
  allowRedirectsRendered : String
  thinkTime : Option String
  asserts : List RawAssertion
  jsonPathAsserts : List RawJsonPath
  xPathAsserts : List RawXPath

/-- One entry of `scenario.get_requests()`: either an HTTP-shaped request or
some other block type (its `NAME` attribute is kept for the warning). -/
inductive RequestEntry where
  | http (r : HTTPRequest)
  | other (name : String)

/-- The scenario config, restricted to the keys this module reads.  `none`
models an absent key. -/
structure Scenario where
  requests : Option (List RequestEntry)
  script : Option String
  keepalive : Option Bool
  defaultAddress : Option String
  pathPfx : Option String
  headers : Option (List (String × String))

/-! ## Scenario Compiler: header merge and body classification -/

/-- The header merge of `_add_url_request`: start from `{}`, `update` with
the scenario-level headers when they are truthy, then `update` with the
request-level headers when they are truthy.  Key comparison is the exact
(case-sensitive) Python dict key equality. -/
def effectiveHeaders (scenarioHeaders : Option (List (String × String)))
    (reqHeaders : List (String × String)) : List (String × String) :=
  let h0 : List (String × String) := []
  let h1 := match scenarioHeaders with
    | some hs => if hs.isEmpty then h0 else dUpdAll h0 hs
    | none => h0
  if reqHeaders.isEmpty then h1 else dUpdAll h1 reqHeaders

/-- `merged_headers = dict([(key.lower(), value) ...])` followed by
`merged_headers.get('content-type', None)`: the only case-insensitive
header lookup in the compiler. -/
def contentTypeOf (headers : List (String × String)) : Option String :=
  List.lookup "content-type"
    (dUpdAll [] (headers.map fun kv => (pyLower kv.1, kv.2)))

/-- The body argument selected by the `if/elif` chain of
`_add_url_request` (which keyword argument the request call receives). -/
inductive BodyArg where
  | json (entries : List (String × PyVal))
  | params (entries : List (String × PyVal))
  | formData (entries : List (String × PyVal))
  | rawData (s : String)
  | absent

/-- Failures while compiling one request: a `TaurusConfigError`, or an
uncaught Python exception escaping the generator. -/
inductive CompileErr where
  | config (msg : String)
  | pyAttrError (msg : String)
  | pyKeyError (key : String)

/-- The `TaurusConfigError` text of the unsupported-body branch:
`"Cannot handle 'body' option of type %s: %s" % (type(body), body)`. -/
def bodyErrMsg (body : PyVal) : String :=
  "Cannot handle \x27body\x27 option of type " ++ body.typeOf.render ++
    ": " ++ pyStr body

/-- Body classification of `_add_url_request` (lines 200-210), with
`method` already lowered.  The chain is, in order:
`content_type == 'application/json' and isinstance(body, (dict, list))`
(the dict comprehension over `iteritems(body)` then crashes with an
`AttributeError` when the body is a list, because lists have no `items`),
`method == "get" and isinstance(body, dict)`, `isinstance(body, dict)`,
`isinstance(body, string_types)`, `elif body:` raise, else no body. -/
def classifyBody (contentType : Option String) (methodLowered : String)
    (body : PyVal) : Except CompileErr BodyArg :=
  if contentType = some "application/json" && (body.isDict || body.isList) then
    match body with
    | .dict es => .ok (.json es)
    | _ => .error (.pyAttrError "\x27list\x27 object has no attribute \x27items\x27")
  else if methodLowered = "get" && body.isDict then
    match body with
    | .dict es => .ok (.params es)
    | _ => .ok .absent
  else if body.isDict then
    match body with
    | .dict es => .ok (.formData es)
    | _ => .ok .absent
  else if body.isStr then
    match body with
    | .str s => .ok (.rawData s)
    | _ => .ok .absent
  else if body.truthy then .error (.config (bodyErrMsg body))
  else .ok .absent

/-- The amended body-classification table, written from the corrected claim:
JSON payload exactly when the content type is `application/json` and the
body is a mapping (a structured *sequence* with that content type trips the
`isinstance` guard and then crashes payload construction); query parameters
when the method is GET and the body is a mapping; form payload for a
mapping under any other method; raw payload for a plain string; a
configuration error naming the offending type and value for any other
*truthy* body; and absent for every falsy body. -/
def specBodyClass (contentType : Option String) (methodLowered : String)
    (body : PyVal) : Except CompileErr BodyArg :=
  match body with
  | .dict es =>
    if contentType = some "application/json" then .ok (.json es)
    else if methodLowered = "get" then .ok (.params es)
    else .ok (.formData es)
  | .list _ =>
    if contentType = some "application/json" then
      .error (.pyAttrError "\x27list\x27 object has no attribute \x27items\x27")
    else if body.truthy then .error (.config (bodyErrMsg body))
    else .ok .absent
  | .str s => .ok (.rawData s)
  | _ => if body.truthy then .error (.config (bodyErrMsg body)) else .ok .absent

/-! ## Scenario Compiler: assertion lowering (`_add_assertions` and friends) -/

/-- `if not isinstance(assertion['contains'], list): [it]`. -/
def normalizeContains : PyVal → List PyVal
  | .list es => es
  | v => [v]

/-- The fixed verb-selection table `func_table`, keyed on
`(subject, use-regex, negate)`; `none` models a `KeyError` on a subject
outside the table (unreachable inside the body/headers branch). -/
def funcTable (subject : String) (regex negate : Bool) : Option String :=
  if subject = FIELD_BODY then
    some (match regex, negate with
      | false, false => "assertInBody"
      | false, true => "assertNotInBody"
      | true, false => "assertRegexInBody"
      | true, true => "assertRegexNotInBody")
  else if subject = FIELD_HEADERS then
    some (match regex, negate with
      | false, false => "assertInHeaders"
      | false, true => "assertNotInHeaders"
      | true, false => "assertRegexInHeaders"
      | true, true => "assertRegexNotInHeaders")
  else none

/-- `"self.{method}({member}, response)"`. -/
def assertLine (method : String) (member : PyVal) : String :=
  "self." ++ method ++ "(" ++ pyRepr member ++ ", response)"

/-- `_add_assertions`: one emitted call per member of the normalized
`contains` list, verb chosen from `funcTable` with `regexp` defaulting to
`True` and `not` defaulting to `False`; status-code subject uses
`assertStatusCode`/`assertNotStatusCode`; any other subject emits nothing.
A dict entry without a `contains` key is a `KeyError` at
`assertion['contains']`. -/
def addAssertions : List RawAssertion → Except CompileErr (List String)
  | [] => .ok []
  | raw :: rest =>
    let a := ensureIsDict raw
    match a.contains with
    | none => .error (.pyKeyError "contains")
    | some cv =>
      let members := normalizeContains cv
      let subject := a.subject.getD FIELD_BODY
      let lines :=
        if subject = FIELD_BODY || subject = FIELD_HEADERS then
          members.map fun m =>
            assertLine
              ((funcTable subject (a.regexp.getD true) (a.negated.getD false)).getD "")
              m
        else if subject = FIELD_RESP_CODE then
          members.map fun m =>
            assertLine
              (if a.negated.getD false then "assertNotStatusCode" else "assertStatusCode")
              m
        else []
      match addAssertions rest with
      | .ok ls => .ok (lines ++ ls)
      | .error e => .error e

/-- Rendering of a `JsonPathCfg` for the missing-query error message
(`'JSON Path not found in assertion: %s' % assertion`); present keys in
field order. -/
def renderJsonCfg (a : JsonPathCfg) : String :=
  pyRepr (.dict ((match a.jsonpath with
      | some q => [("jsonpath", q)]
      | none => []) ++
    (match a.expectedValue with
      | some e => [("expected-value", e)]
      | none => []) ++
    (match a.invert with
      | some b => [("invert", PyVal.bool b)]
      | none => [])))

/-- `_add_jsonpath_assertions`: a missing `jsonpath` key raises a
`TaurusConfigError` (the `BetterDict.get` exception-default convention of
`bzt.utils`); `expected-value` falls back to `''` and is then collapsed to
`None` when falsy; `invert` selects the `Not` verb. -/
def jsonPathLines : List RawJsonPath → Except CompileErr (List String)
  | [] => .ok []
  | raw :: rest =>
    let a := ensureIsDictJsonPath raw
    match a.jsonpath with
    | none => .error (.config ("JSON Path not found in assertion: " ++ renderJsonCfg a))
    | some q =>
      let expectedRaw := a.expectedValue.getD (.str "")
      let expected : Option PyVal :=
        if expectedRaw.truthy then some expectedRaw else Option.none
      let m := if a.invert.getD false then "assertNotJSONPath" else "assertJSONPath"
      let line := "self." ++ m ++ "(" ++ pyRepr q ++ ", response, expected_value=" ++
        (match expected with
         | some e => pyRepr e
         | none => "None") ++ ")"
      match jsonPathLines rest with
      | .ok ls => .ok (line :: ls)
      | .error e => .error e

/-- Rendering of an `XPathCfg` for the missing-query error message. -/
def renderXPathCfg (a : XPathCfg) : String :=
  pyRepr (.dict ((match a.xpath with
      | some q => [("xpath", q)]
      | none => []) ++
    (match a.invert with
      | some b => [("invert", PyVal.bool b)]
      | none => [])))

/-- `_add_xpath_assertions`: analogous to the JSONPath lowering, without an
expected value. -/
def xPathLines : List RawXPath → Except CompileErr (List String)
  | [] => .ok []
  | raw :: rest =>
    let a := ensureIsDictXPath raw
    match a.xpath with
    | none => .error (.config ("XPath not found in assertion: " ++ renderXPathCfg a))
    | some q =>
      let m := if a.invert.getD false then "assertNotXPath" else "assertXPath"
      let line := "self." ++ m ++ "(" ++ pyRepr q ++ ", response)"
      match xPathLines rest with
      | .ok ls => .ok (line :: ls)
      | .error e => .error e

/-! ## Scenario Compiler: method naming -/

/-- `'%05d' % n`: the decimal digits of `n`, left-padded with `'0'` to a
width of five.  Below `100000` (where the zero padding is live) this is
exactly the five decimal digits of `n`; at and above `100000` the padding
is inert and the rendering is the plain decimal digit string. -/
def pad5 (n : Nat) : List Char :=
  if n < 100000 then
    [Nat.digitChar (n / 10000 % 10), Nat.digitChar (n / 1000 % 10),
     Nat.digitChar (n / 100 % 10), Nat.digitChar (n / 10 % 10),
     Nat.digitChar (n % 10)]
  else Nat.toDigits 10 n

/-- `[0-9a-zA-Z]` of the sanitizing regex. -/
def isAlnumAscii (c : Char) : Bool := c.isAlphanum

mutual

/-- `re.sub('[^0-9a-zA-Z]+', '_', s)`: each maximal run of non-alphanumeric
characters collapses to a single underscore. -/
def sanitizeChars : List Char → List Char
  | [] => []
  | c :: rest =>
    if isAlnumAscii c then c :: sanitizeChars rest
    else '_' :: skipNonAlnum rest

/-- Inside a non-alphanumeric run: drop characters until the run ends. -/
def skipNonAlnum : List Char → List Char
  | [] => []
  | c :: rest =>
    if isAlnumAscii c then c :: sanitizeChars rest
    else skipNonAlnum rest

end

/-- `re.sub('[^0-9a-zA-Z]+', '_', req.url[:30])`. -/
def sanitizeUrl (url : String) : String := ⟨sanitizeChars (url.data.take 30)⟩

/-- `'test_%05d_%s' % (index, mod_label)`. -/
def methodName (index : Nat) (url : String) : String :=
  "test_" ++ ⟨pad5 index⟩ ++ "_" ++ sanitizeUrl url

/-! ## Scenario Compiler: one request body (`_add_url_request`) -/

/-- `repr` of the merged headers dict (string keys and values). -/
def renderHeadersDict (h : List (String × String)) : String :=
  pyRepr (.dict (h.map fun kv => (kv.1, PyVal.str kv.2)))

/-- `repr(list(iteritems(body)))`: a list of 2-tuples, the form-data
rendering. -/
def renderPairsList (es : List (String × PyVal)) : String :=
  "[" ++ String.intercalate ", "
    (es.map fun kv => "(" ++ pyReprStr kv.1 ++ ", " ++ pyRepr kv.2 ++ ")") ++ "]"

/-- The `named_args` ordered dict of `_add_url_request`, rendered:
`timeout` and `allow_redirects` always, `headers` when the merged dict is
truthy, then the body argument selected by `classifyBody`. -/
def namedArgsOf (s : Scenario) (r : HTTPRequest) :
    Except CompileErr (List (String × String)) :=
  let base := [("timeout", r.timeoutRendered),
               ("allow_redirects", r.allowRedirectsRendered)]
  let headers := effectiveHeaders s.headers r.headers
  let withHeaders :=
    if headers.isEmpty then base else base ++ [("headers", renderHeadersDict headers)]
  match classifyBody (contentTypeOf headers) (pyLower r.method) r.body with
  | .error e => .error e
  | .ok .absent => .ok withHeaders
  | .ok (.json es) => .ok (withHeaders ++ [("json", pyRepr (.dict es))])
  | .ok (.params es) => .ok (withHeaders ++ [("params", pyRepr (.dict es))])
  | .ok (.formData es) => .ok (withHeaders ++ [("data", renderPairsList es)])
  | .ok (.rawData b) => .ok (withHeaders ++ [("data", pyReprStr b)])

/-- `", ".join("%s=%r" % ...)` over the named arguments (values already
rendered). -/
def renderKwargs (args : List (String × String)) : String :=
  String.intercalate ", " (args.map fun nv => nv.1 ++ "=" ++ nv.2)

/-- `_add_url_request`: the statement list of one test method, in emission
order: the request call, `assertOk`, plain assertions, JSONPath assertions,
XPath assertions, then the optional think-time sleep. -/
def buildTestMethod (s : Scenario) (r : HTTPRequest) :
    Except CompileErr (List String) :=
  match namedArgsOf s r with
  | .error e => .error e
  | .ok args =>
    let reqLine := "response = self." ++ pyLower r.method ++ "(" ++
      pyReprStr r.url ++ ", " ++ renderKwargs args ++ ")"
    match addAssertions r.asserts with
    | .error e => .error e
    | .ok aLines =>
      match jsonPathLines r.jsonPathAsserts with
      | .error e => .error e
      | .ok jLines =>
        match xPathLines r.xPathAsserts with
        | .error e => .error e
        | .ok xLines =>
          .ok ([reqLine, "self.assertOk(response)"] ++ aLines ++ jLines ++ xLines ++
            (match r.thinkTime with
             | some t => ["time.sleep(" ++ t ++ ")"]
             | none => []))

/-! ## Scenario Compiler: the `build_source_code` loop -/

/-- The warning for a non-HTTP request block:
`"Apiritif script generator doesn't support '%s' blocks, skipping" % NAME`. -/
def warnMsg (name : String) : String :=
  "Apiritif script generator doesn\x27t support \x27" ++ name ++
    "\x27 blocks, skipping"

/-- Python `enumerate`, starting at `i`. -/
def enumFrom {α : Type} (i : Nat) : List α → List (Nat × α)
  | [] => []
  | a :: l => (i, a) :: enumFrom (i + 1) l

/-- The request loop of `build_source_code` over already-enumerated request
entries: a non-HTTP entry contributes a warning and is skipped, an HTTP
entry contributes one named test method; the first failing request aborts
the whole compilation.  Returns `(warnings, methods)`. -/
def buildLoop (s : Scenario) :
    List (Nat × RequestEntry) →
      Except CompileErr (List String × List (String × List String))
  | [] => .ok ([], [])
  | (_, .other name) :: rest =>
    match buildLoop s rest with
    | .error e => .error e
    | .ok (ws, ms) => .ok (warnMsg name :: ws, ms)
  | (i, .http r) :: rest =>
    match buildTestMethod s r with
    | .error e => .error e
    | .ok stmts =>
      match buildLoop s rest with
      | .error e => .error e
      | .ok (ws, ms) => .ok (ws, (methodName i r.url, stmts) :: ms)

/-- `build_source_code`, restricted to its loop over
`enumerate(self.scenario.get_requests())`; the fixed imports, class
scaffolding and indentation are rendered by `PythonGenerator`
(`bzt.utils`, an external collaborator). -/
def buildSourceCode (s : Scenario) :
    Except CompileErr (List String × List (String × List String)) :=
  buildLoop s (enumFrom 0 (s.requests.getD []))

/-! ## Scenario Compiler: `gen_setup_method` -/

/-- `gen_setup_method`: `keep_alive` is always emitted (its value defaults
to `True` when the key is absent); `default_address` and `path_prefix` are
emitted only when configured; a trailing blank line closes the block. -/
def genSetupMethod (s : Scenario) : List String :=
  ["super(TestRequests, self).setUp()",
   "self.keep_alive = " ++ (if s.keepalive.getD true then "True" else "False")] ++
  (match s.defaultAddress with
   | some a => ["self.default_address = " ++ pyReprStr a]
   | none => []) ++
  (match s.pathPfx with
   | some p => ["self.path_prefix = " ++ pyReprStr p]
   | none => []) ++
  [""]

/-! ## Test Runner Supervisor: `ApiritifExecutor.prepare` -/

/-- Observable side effects of `prepare`, in program order.  Launching the
worker process happens later, in `startup`, never in `prepare`. -/
inductive PrepareEffect where
  | createArtifact (name ext : String)
  | generateScript
  | useScriptPath
  | attachFuncReader
  | attachLoadReader
deriving DecidableEq

/-- Failures of `prepare`. -/
inductive PrepareErr where
  | config (msg : String)
  | compile (e : CompileErr)

/-- The `TaurusConfigError` text of `prepare`. -/
def prepareErrText : String :=
  "You must specify either \x27requests\x27 or \x27script\x27 for Apiritif"

/-- `ApiritifExecutor.prepare`: with a `requests` key the script is
generated (artifact `test_api.py`, then the compiler); with only a
`script` key the configured path is used; with neither, a
`TaurusConfigError` is raised before any of the `nose.out` / `nose.err` /
`report.ldjson` artifacts is allocated and before any reader is attached. -/
def prepare (s : Scenario) (functionalMode : Bool) :
    Except PrepareErr (List PrepareEffect) :=
  match
    (if s.requests.isSome then
      match buildSourceCode s with
      | .error e => Except.error (PrepareErr.compile e)
      | .ok _ => .ok [PrepareEffect.createArtifact "test_api" ".py",
                      PrepareEffect.generateScript]
    else if s.script.isSome then .ok [PrepareEffect.useScriptPath]
    else .error (.config prepareErrText)) with
  | .error e => .error e
  | .ok fx => .ok (fx ++
      [.createArtifact "nose" ".out", .createArtifact "nose" ".err",
       .createArtifact "report" ".ldjson",
       if functionalMode then .attachFuncReader else .attachLoadReader])

/-! ## Helper lemmas -/

/-- `str.startswith(pre)`, used to recognize which setting a generated
setup statement assigns. -/
def startsWithStr (s pre : String) : Bool := pre.data.isPrefixOf s.data

/-- A scenario configuring neither `requests` nor `script`. -/
def noSourceScenario : Scenario :=
  { requests := none, script := none, keepalive := none,
    defaultAddress := none, pathPfx := none, headers := none }

/-- A scenario with none of the setup keys configured. -/
def bareSetupScenario : Scenario :=
  { requests := some [], script := none, keepalive := none,
    defaultAddress := none, pathPfx := none, headers := none }

/-- A minimal HTTP request: GET on url `"u"`, no headers, no body, no
assertions, resolved default timeout/redirect options. -/
def rPlain : HTTPRequest :=
  { method := "get", url := "u", headers := [], body := .none,
    timeoutRendered := "30.0", allowRedirectsRendered := "True",
    thinkTime := none, asserts := [], jsonPathAsserts := [],
    xPathAsserts := [] }

/-- A scenario whose only request entry is a non-HTTP block. -/
def otherOnlyScenario : Scenario :=
  { requests := some [.other "transaction"], script := none,
    keepalive := none, defaultAddress := none, pathPfx := none,
    headers := none }

/-- A scenario mixing a non-HTTP block and an HTTP request. -/
def mixedScenario : Scenario :=
  { requests := some [.other "grinder", .http rPlain], script := none,
    keepalive := none, defaultAddress := none, pathPfx := none,
    headers := none }

/-- The successful compilation output of `mixedScenario`. -/
def mixedOut : List String × List (String × List String) :=
  match buildSourceCode mixedScenario with
  | .ok pr => pr
  | .error _ => ([], [])

/-- A scenario with two HTTP requests on the same URL. -/
def twoReqScenario : Scenario :=
  { requests := some [.http rPlain, .http rPlain], script := none,
    keepalive := none, defaultAddress := none, pathPfx := none,
    headers := none }

/-- The successful compilation output of `twoReqScenario`. -/
def twoReqOut : List String × List (String × List String) :=
  match buildSourceCode twoReqScenario with
  | .ok pr => pr
  | .error _ => ([], [])

/-- The emitted method names of a scenario (empty on a failed compile). -/
def methodNamesOf (s : Scenario) : List String :=
  match buildSourceCode s with
  | .ok pr => pr.2.map Prod.fst
  | .error _ => []

/-- A scenario with 100001 identical HTTP requests — one more than the
5-digit zero padding can keep ordered. -/
def hundredKScenario : Scenario :=
  { requests := some (List.replicate 100001 (.http rPlain)), script := none,
    keepalive := none, defaultAddress := none, pathPfx := none,
    headers := none }

/-- The compiled statement list of `rPlain` inside `hundredKScenario`. -/
def rPlainStmts : List String :=
  match buildTestMethod hundredKScenario rPlain with
  | .ok st => st
  | .error _ => []

theorem strData (a b : String) : (a ++ b).data = a.data ++ b.data := rfl

theorem mkData (l : List Char) : (String.mk l).data = l := rfl

theorem isPrefixOf_append_self (p x : List Char) :
    p.isPrefixOf (p ++ x) = true := by
  induction p with
  | nil => simp [List.isPrefixOf]
  | cons a as ih => simp [List.isPrefixOf, ih]

theorem isPrefixOf_append_false (p q x : List Char)
    (h1 : p.isPrefixOf q = false) (h2 : q.isPrefixOf p = false) :
    p.isPrefixOf (q ++ x) = false := by
  induction p generalizing q with
  | nil => simp [List.isPrefixOf] at h1
  | cons a as ih =>
    cases q with
    | nil => simp [List.isPrefixOf] at h2
    | cons b bs =>
      by_cases hab : a = b
      · subst hab
        simp only [List.isPrefixOf, beq_self_eq_true, Bool.true_and] at h1 h2
        show (a :: as).isPrefixOf (a :: (bs ++ x)) = false
        simp only [List.isPrefixOf, beq_self_eq_true, Bool.true_and]
        exact ih bs h1 h2
      · show (a :: as).isPrefixOf (b :: (bs ++ x)) = false
        have hb : (a == b) = false := beq_eq_false_iff_ne.mpr hab
        simp [List.isPrefixOf, hb]

theorem lookupCons {β : Type} (k : String) (a : String × β)
    (l : List (String × β)) :
    List.lookup k (a :: l) = if k = a.1 then some a.2 else List.lookup k l := by
  rcases a with ⟨k0, v0⟩
  by_cases h : k = k0
  · have hb : (k == k0) = true := beq_iff_eq.mpr h
    rw [List.lookup_cons, hb, if_pos h]
  · have hb : (k == k0) = false := beq_eq_false_iff_ne.mpr h
    rw [List.lookup_cons, hb, if_neg h]

theorem lookupSingleton {β : Type} (k : String) (a : String × β) :
    List.lookup k [a] = if k = a.1 then some a.2 else none := lookupCons k a []

theorem lookup_dUpd {β : Type} (d : List (String × β)) (k k' : String) (v : β) :
    List.lookup k' (dUpd d k v) =
      if k' = k then some v else List.lookup k' d := by
  induction d with
  | nil => exact lookupCons k' (k, v) []
  | cons kv rest ih =>
    obtain ⟨k0, v0⟩ := kv
    by_cases h0 : k0 = k
    · subst h0
      have hd : dUpd ((k0, v0) :: rest) k0 v = (k0, v) :: rest := by
        simp [dUpd]
      rw [hd, lookupCons, lookupCons]
      by_cases hk : k' = k0 <;> simp [hk]
    · have hd : dUpd ((k0, v0) :: rest) k v = (k0, v0) :: dUpd rest k v := by
        simp [dUpd, h0]
      rw [hd, lookupCons]
      by_cases hk : k' = k0
      · have hkk : ¬ k' = k := fun e => h0 ((hk.symm.trans e) ▸ rfl)
        rw [if_pos hk, if_neg hkk, lookupCons, if_pos hk]
      · rw [if_neg hk, ih]
        by_cases hk2 : k' = k
        · rw [if_pos hk2, if_pos hk2]
        · rw [if_neg hk2, if_neg hk2, lookupCons, if_neg hk]

theorem lookup_dUpdAll {β : Type} (l : List (String × β))
    (d : List (String × β)) (k : String) :
    List.lookup k (dUpdAll d l) =
      (List.lookup k l.reverse).or (List.lookup k d) := by
  induction l generalizing d with
  | nil => simp [dUpdAll]
  | cons kv rest ih =>
    have step : dUpdAll d (kv :: rest) = dUpdAll (dUpd d kv.1 kv.2) rest := rfl
    rw [step, ih, List.reverse_cons, List.lookup_append, lookup_dUpd,
      lookupSingleton]
    by_cases hk : k = kv.1 <;>
      cases hx : List.lookup k rest.reverse <;>
        simp [hk, Option.or]

theorem lookup_none_of_not_mem_keys {β : Type} (l : List (String × β))
    (k : String) (h : k ∉ l.map Prod.fst) : List.lookup k l = none := by
  induction l with
  | nil => rfl
  | cons kv rest ih =>
    simp only [List.map_cons, List.mem_cons] at h
    push_neg at h
    rw [lookupCons, if_neg h.1]
    exact ih h.2

theorem lookup_reverse_of_nodup {β : Type} (l : List (String × β)) (k : String)
    (h : (l.map Prod.fst).Nodup) :
    List.lookup k l.reverse = List.lookup k l := by
  induction l with
  | nil => rfl
  | cons kv rest ih =>
    simp only [List.map_cons, List.nodup_cons] at h
    rw [List.reverse_cons, List.lookup_append, ih h.2, lookupSingleton,
      lookupCons]
    by_cases hk : k = kv.1
    · rw [if_pos hk, if_pos hk, hk, lookup_none_of_not_mem_keys rest kv.1 h.1]
      simp [Option.or]
    · rw [if_neg hk, if_neg hk]
      exact Option.or_none

theorem lookup_map_lower {β : Type} (l : List (String × β)) (k : String) :
    List.lookup k (l.map fun kv => (pyLower kv.1, kv.2)) =
      (l.find? fun kv => pyLower kv.1 == k).map Prod.snd := by
  induction l with
  | nil => rfl
  | cons kv rest ih =>
    show List.lookup k ((pyLower kv.1, kv.2) :: rest.map _) = _
    rw [lookupCons]
    by_cases h : pyLower kv.1 = k
    · rw [if_pos h.symm,
        List.find?_cons_of_pos (p := fun kv => pyLower kv.1 == k) rest
          (beq_iff_eq.mpr h)]
      rfl
    · rw [if_neg (fun e => h e.symm),
        List.find?_cons_of_neg (p := fun kv => pyLower kv.1 == k) rest
          (by simp [beq_iff_eq]; exact h)]
      exact ih

theorem digitChar_mono :
    ∀ a, a < 10 → ∀ b, b < 10 → a < b → Nat.digitChar a < Nat.digitChar b := by
  decide

theorem listLt_cons_same (c : Char) {as bs : List Char} (h : as < bs) :
    c :: as < c :: bs :=
  List.Lex.cons h

theorem pad5_append_lt (i j : Nat) (r1 r2 : List Char)
    (hij : i < j) (hj : j < 100000) :
    pad5 i ++ r1 < pad5 j ++ r2 := by
  have hi : i < 100000 := lt_trans hij hj
  rw [pad5, pad5, if_pos hi, if_pos hj]
  simp only [List.cons_append, List.nil_append]
  have step : ∀ a b : Nat, a < 10 → b < 10 →
      ∀ s t : List Char, (a < b ∨ (a = b ∧ s < t)) →
        Nat.digitChar a :: s < Nat.digitChar b :: t := by
    intro a b ha hb s t h
    rcases h with h | ⟨he, hst⟩
    · exact List.Lex.rel (digitChar_mono a ha b hb h)
    · subst he; exact listLt_cons_same _ hst
  apply step _ _ (by omega) (by omega)
  rcases Nat.lt_or_ge (i / 10000 % 10) (j / 10000 % 10) with h4 | h4
  · exact Or.inl h4
  · have e4 : i / 10000 % 10 = j / 10000 % 10 := by omega
    refine Or.inr ⟨e4, ?_⟩
    apply step _ _ (by omega) (by omega)
    rcases Nat.lt_or_ge (i / 1000 % 10) (j / 1000 % 10) with h3 | h3
    · exact Or.inl h3
    · have e3 : i / 1000 % 10 = j / 1000 % 10 := by omega
      refine Or.inr ⟨e3, ?_⟩
      apply step _ _ (by omega) (by omega)
      rcases Nat.lt_or_ge (i / 100 % 10) (j / 100 % 10) with h2 | h2
      · exact Or.inl h2
      · have e2 : i / 100 % 10 = j / 100 % 10 := by omega
        refine Or.inr ⟨e2, ?_⟩
        apply step _ _ (by omega) (by omega)
        rcases Nat.lt_or_ge (i / 10 % 10) (j / 10 % 10) with h1 | h1
        · exact Or.inl h1
        · have e1 : i / 10 % 10 = j / 10 % 10 := by omega
          refine Or.inr ⟨e1, ?_⟩
          apply step _ _ (by omega) (by omega)
          exact Or.inl (by omega)

theorem methodName_lt (i j : Nat) (u1 u2 : String)
    (hij : i < j) (hj : j < 100000) :
    strLt (methodName i u1) (methodName j u2) := by
  unfold strLt methodName
  rw [strData, strData, strData, strData, strData, strData, mkData, mkData]
  have h5 : "test_".data = ['t', 'e', 's', 't', '_'] := rfl
  rw [h5]
  simp only [List.cons_append, List.nil_append, List.append_assoc]
  apply listLt_cons_same
  apply listLt_cons_same
  apply listLt_cons_same
  apply listLt_cons_same
  apply listLt_cons_same
  exact pad5_append_lt i j _ _ hij hj

/-! ### `enumFrom` and the build loop -/

theorem mem_enumFrom {α : Type} (i : Nat) (l : List α) (p : Nat × α)
    (h : p ∈ enumFrom i l) : i ≤ p.1 ∧ p.1 < i + l.length := by
  induction l generalizing i with
  | nil => cases h
  | cons a rest ih =>
    rw [enumFrom] at h
    rcases List.mem_cons.mp h with h | h
    · subst h; simp
    · have := ih (i + 1) h
      simp only [List.length_cons]
      omega

theorem pairwise_enumFrom_fst {α : Type} (i : Nat) (l : List α) :
    (enumFrom i l).Pairwise (fun p q => p.1 < q.1) := by
  induction l generalizing i with
  | nil => exact List.Pairwise.nil
  | cons a rest ih =>
    rw [enumFrom]
    refine List.Pairwise.cons ?_ (ih (i + 1))
    intro q hq
    have := mem_enumFrom (i + 1) rest q hq
    omega

theorem enumFrom_filterMap_snd {α β : Type} (g : α → Option β) (i : Nat)
    (l : List α) :
    (enumFrom i l).filterMap (fun p => g p.2) = l.filterMap g := by
  induction l generalizing i with
  | nil => rfl
  | cons a rest ih =>
    rw [enumFrom, List.filterMap_cons, List.filterMap_cons]
    cases g a <;> simp [ih]

theorem enumFrom_filter_snd {α : Type} (q : α → Bool) (i : Nat) (l : List α) :
    ((enumFrom i l).filter (fun p => q p.2)).length = (l.filter q).length := by
  induction l generalizing i with
  | nil => rfl
  | cons a rest ih =>
    rw [enumFrom, List.filter_cons, List.filter_cons]
    cases q a <;> simp [ih]

/-- What `buildLoop` produces when it succeeds: one warning per non-HTTP
entry, one method per HTTP entry named `methodName` at that entry's index,
both in entry order. -/
theorem buildLoop_ok_shape (s : Scenario) (l : List (Nat × RequestEntry))
    (ws : List String) (ms : List (String × List String))
    (h : buildLoop s l = .ok (ws, ms)) :
    ws = l.filterMap (fun p => match p.2 with
      | .other n => some (warnMsg n)
      | .http _ => none) ∧
    ms.map Prod.fst = l.filterMap (fun p => match p.2 with
      | .http r => some (methodName p.1 r.url)
      | .other _ => none) ∧
    ms.length = (l.filter (fun p => match p.2 with
      | .http _ => true
      | .other _ => false)).length := by
  induction l generalizing ws ms with
  | nil =>
    rw [buildLoop] at h
    cases h
    exact ⟨rfl, rfl, rfl⟩
  | cons p rest ih =>
    obtain ⟨i, e⟩ := p
    cases e with
    | other name =>
      rw [buildLoop] at h
      cases hbl : buildLoop s rest with
      | error er => rw [hbl] at h; cases h
      | ok pr =>
        obtain ⟨ws0, ms0⟩ := pr
        rw [hbl] at h
        simp only [Except.ok.injEq, Prod.mk.injEq] at h
        obtain ⟨hw, hm⟩ := h
        subst hw; subst hm
        obtain ⟨e1, e2, e3⟩ := ih ws0 ms0 hbl
        refine ⟨?_, ?_, ?_⟩
        · rw [List.filterMap_cons]; simp [e1]
        · rw [List.filterMap_cons]; simp [e2]
        · rw [List.filter_cons]; simp [e3]
    | http r =>
      rw [buildLoop] at h
      cases hbt : buildTestMethod s r with
      | error er => rw [hbt] at h; cases h
      | ok stmts =>
        rw [hbt] at h
        cases hbl : buildLoop s rest with
        | error er => rw [hbl] at h; cases h
        | ok pr =>
          obtain ⟨ws0, ms0⟩ := pr
          rw [hbl] at h
          simp only [Except.ok.injEq, Prod.mk.injEq] at h
          obtain ⟨hw, hm⟩ := h
          subst hw; subst hm
          obtain ⟨e1, e2, e3⟩ := ih ws0 ms0 hbl
          refine ⟨?_, ?_, ?_⟩
          · rw [List.filterMap_cons]; simp [e1]
          · rw [List.filterMap_cons]; simp [e2]
          · rw [List.filter_cons]; simp [e3]

/-! ## Claim theorems -/

/-- C1 (corrected, counterexample): `check` does *not* return "finished"
(`True`) for a finished worker with a non-zero exit code; it raises a
`ToolError` instead.  Concretely, polling a worker that exited with code 2
and stderr `"boom"` yields the raised error, not `True`. -/
theorem check_nonzero_not_finished_counterexample :
    check "apiritif" "ApiritifExecutor" (some 2) "boom" ≠ Except.ok true ∧
    check "apiritif" "ApiritifExecutor" (some 2) "boom" =
      Except.error (checkErrMsg "apiritif" "ApiritifExecutor" 2 "boom") := by
  have he : check "apiritif" "ApiritifExecutor" (some 2) "boom" =
      Except.error (checkErrMsg "apiritif" "ApiritifExecutor" 2 "boom") := rfl
  refine ⟨fun h => ?_, he⟩
  rw [he] at h
  exact Except.noConfusion h

/-- C1 (corrected, amended claim): while the worker runs `check` returns
`False`; a finished worker yields `True` only for exit code `0`; any
non-zero exit code raises a `ToolError` carrying the exit code and the
captured stderr, so the failure still reaches the caller as an exception,
not as a "finished" result. -/
theorem check_exit_semantics (label clsName stdErr : String) (c : Int)
    (h : c ≠ 0) :
    check label clsName Option.none stdErr = .ok false ∧
    check label clsName (some 0) stdErr = .ok true ∧
    check label clsName (some c) stdErr =
      .error (checkErrMsg label clsName c stdErr) := by
  refine ⟨rfl, rfl, ?_⟩
  have hb : (c != 0) = true := by simp [bne_iff_ne]; exact h
  simp [check, hb]

/-- C1 witness: the amended semantics at exit code 2. -/
theorem check_exit_semantics_witness :
    check "apiritif-w" "ApiritifExecutor" (some 2) "boom" =
      .error (checkErrMsg "apiritif-w" "ApiritifExecutor" 2 "boom") :=
  (check_exit_semantics "apiritif-w" "ApiritifExecutor" "boom" 2
    (by decide)).2.2

/-- C7 (corrected, counterexample): the failure message does not contain
the captured stderr *verbatim* — `check` strips it first.  For exit code 2
with stderr `"boom\n"` the raised message contains `"boom"` but not the
verbatim `"boom\n"`. -/
theorem check_stderr_stripped_counterexample :
    check "x" "ApiritifExecutor" (some 2) "boom\n" =
      Except.error (checkErrMsg "x" "ApiritifExecutor" 2 "boom\n") ∧
    ¬ containsSub "boom\n" (checkErrMsg "x" "ApiritifExecutor" 2 "boom\n") ∧
    containsSub "boom" (checkErrMsg "x" "ApiritifExecutor" 2 "boom\n") := by
  exact ⟨rfl, by decide, by decide⟩

/-- C7 (corrected, amended claim): a non-zero exit code raises a
`ToolError` whose message contains the exit code and the
whitespace-stripped captured stderr (so the stderr content is surfaced,
but stripped rather than verbatim). -/
theorem check_failure_surfaces_stderr (label clsName stdErr : String)
    (c : Int) (h : c ≠ 0) :
    check label clsName (some c) stdErr =
      .error (checkErrMsg label clsName c stdErr) ∧
    containsSub (toString c) (checkErrMsg label clsName c stdErr) ∧
    containsSub (pyStrip stdErr) (checkErrMsg label clsName c stdErr) := by
  refine ⟨(check_exit_semantics label clsName stdErr c h).2.2, ?_, ?_⟩
  · refine ⟨("Nose " ++ label ++ " (" ++ clsName ++
      ") has failed with retcode ").data, (" \n " ++ pyStrip stdErr).data, ?_⟩
    simp [checkErrMsg, strData, List.append_assoc]
  · refine ⟨("Nose " ++ label ++ " (" ++ clsName ++
      ") has failed with retcode " ++ toString c ++ " \n ").data, [], ?_⟩
    simp [checkErrMsg, strData, List.append_assoc]

/-- C7 witness: exit code 2 with stderr `"boom"` — the message contains
`"boom"` and `"2"`. -/
theorem check_failure_surfaces_stderr_witness :
    check "wit" "ApiritifExecutor" (some 2) "boom" =
      .error (checkErrMsg "wit" "ApiritifExecutor" 2 "boom") ∧
    containsSub "2" (checkErrMsg "wit" "ApiritifExecutor" 2 "boom") ∧
    containsSub "boom" (checkErrMsg "wit" "ApiritifExecutor" 2 "boom") := by
  have h := check_failure_surfaces_stderr "wit" "ApiritifExecutor" "boom" 2
    (by decide)
  refine ⟨h.1, ?_, ?_⟩
  · have e : toString (2 : Int) = "2" := rfl
    exact e ▸ h.2.1
  · have e : pyStrip "boom" = "boom" := rfl
    exact e ▸ h.2.2

/-- C10 (confirmed): a scenario with neither a `requests` list nor a
`script` entry makes `prepare` raise a `TaurusConfigError` immediately;
the error result carries no effect trace, so no artifact path is
allocated, no reader is attached, and (since only `startup` launches the
worker) no process is started. -/
theorem prepare_requires_requests_or_script (s : Scenario) (fm : Bool)
    (h1 : s.requests = none) (h2 : s.script = none) :
    prepare s fm = .error (.config prepareErrText) := by
  simp [prepare, h1, h2]

/-- C10 witness: the empty scenario. -/
theorem prepare_requires_requests_or_script_witness :
    prepare noSourceScenario false = .error (.config prepareErrText) :=
  prepare_requires_requests_or_script noSourceScenario false rfl rfl

/-- C3 (corrected, counterexample): a falsy body of an unsupported type —
here the integer `0` under a POST with no content type — is *not* rejected
with a configuration error; the `elif body:` guard lets it fall through
and it is treated as an absent body. -/
theorem falsy_body_not_rejected_counterexample :
    (PyVal.int 0).isDict = false ∧ (PyVal.int 0).isStr = false ∧
    PyVal.int 0 ≠ PyVal.none ∧
    classifyBody Option.none "post" (PyVal.int 0) = .ok .absent := by
  refine ⟨rfl, rfl, fun h => PyVal.noConfusion h, rfl⟩

/-- C3 (corrected, amended claim): body classification is total and equals
the amended table `specBodyClass` — JSON payload for a mapping body under
content type exactly `application/json` (a structured sequence with that
content type passes the guard but crashes payload construction with an
`AttributeError`); query parameters for a GET with a mapping body; form
payload for a mapping under any other method; raw payload for a plain
string; a configuration error naming the offending type and value for any
other *truthy* body; absent for every falsy body.  The error message
contains both the Python type and the value. -/
theorem body_classification_total (ct : Option String) (m : String)
    (b : PyVal) :
    classifyBody ct m b = specBodyClass ct m b ∧
    containsSub b.typeOf.render (bodyErrMsg b) ∧
    containsSub (pyStr b) (bodyErrMsg b) := by
  refine ⟨?_, ?_, ?_⟩
  · cases b with
    | dict es =>
      by_cases hct : ct = some "application/json"
      · simp [classifyBody, specBodyClass, hct, PyVal.isDict]
      · by_cases hm : m = "get" <;>
          simp [classifyBody, specBodyClass, hct, hm, PyVal.isDict,
            PyVal.isList, PyVal.isStr]
    | list es =>
      by_cases hct : ct = some "application/json" <;>
        simp [classifyBody, specBodyClass, hct, PyVal.isDict, PyVal.isList,
          PyVal.isStr, PyVal.truthy]
    | str s =>
      simp [classifyBody, specBodyClass, PyVal.isDict, PyVal.isList,
        PyVal.isStr]
    | int n =>
      simp [classifyBody, specBodyClass, PyVal.isDict, PyVal.isList,
        PyVal.isStr, PyVal.truthy]
    | bool v =>
      simp [classifyBody, specBodyClass, PyVal.isDict, PyVal.isList,
        PyVal.isStr, PyVal.truthy]
    | none =>
      simp [classifyBody, specBodyClass, PyVal.isDict, PyVal.isList,
        PyVal.isStr, PyVal.truthy]
  · refine ⟨("Cannot handle \x27body\x27 option of type ").data,
      (": " ++ pyStr b).data, ?_⟩
    simp [bodyErrMsg, strData, List.append_assoc]
  · refine ⟨("Cannot handle \x27body\x27 option of type " ++
      b.typeOf.render ++ ": ").data, [], ?_⟩
    simp [bodyErrMsg, strData, List.append_assoc]

theorem startsWith_self (p x : String) : startsWithStr (p ++ x) p = true := by
  unfold startsWithStr
  rw [strData]
  exact isPrefixOf_append_self _ _

theorem startsWith_other (p q x : String)
    (h1 : p.data.isPrefixOf q.data = false)
    (h2 : q.data.isPrefixOf p.data = false) :
    startsWithStr (q ++ x) p = false := by
  unfold startsWithStr
  rw [strData]
  exact isPrefixOf_append_false _ _ _ h1 h2

/-- C8 (corrected, counterexample): with no `keepalive` key configured the
setup block still emits `self.keep_alive = True` — the keep-alive
assignment is unconditional, unlike the address and prefix assignments. -/
theorem keepalive_always_emitted_counterexample :
    bareSetupScenario.keepalive = none ∧
    "self.keep_alive = True" ∈ genSetupMethod bareSetupScenario := by
  exact ⟨rfl, by decide⟩

/-- C8 (corrected, amended claim): the setup block always contains exactly
one keep-alive assignment, whose value is the configured flag or `True`
when unconfigured; it contains a default-address (resp. path-prefix)
assignment exactly when that key is configured, with the configured
value. -/
theorem setup_conditional_emission (s : Scenario) :
    (genSetupMethod s).filter
        (fun st => startsWithStr st "self.keep_alive = ") =
      ["self.keep_alive = " ++
        (if s.keepalive.getD true then "True" else "False")] ∧
    (genSetupMethod s).filter
        (fun st => startsWithStr st "self.default_address = ") =
      (match s.defaultAddress with
       | some a => ["self.default_address = " ++ pyReprStr a]
       | none => []) ∧
    (genSetupMethod s).filter
        (fun st => startsWithStr st "self.path_prefix = ") =
      (match s.pathPfx with
       | some p => ["self.path_prefix = " ++ pyReprStr p]
       | none => []) := by
  obtain ⟨rq, sc, ka, da, pp, hd⟩ := s
  have pKA : ∀ x, startsWithStr ("self.keep_alive = " ++ x)
      "self.keep_alive = " = true := fun x => startsWith_self _ x
  have pDA : ∀ x, startsWithStr ("self.default_address = " ++ x)
      "self.default_address = " = true := fun x => startsWith_self _ x
  have pPP : ∀ x, startsWithStr ("self.path_prefix = " ++ x)
      "self.path_prefix = " = true := fun x => startsWith_self _ x
  have cDAka : ∀ x, startsWithStr ("self.default_address = " ++ x)
      "self.keep_alive = " = false :=
    fun x => startsWith_other _ _ x (by decide) (by decide)
  have cPPka : ∀ x, startsWithStr ("self.path_prefix = " ++ x)
      "self.keep_alive = " = false :=
    fun x => startsWith_other _ _ x (by decide) (by decide)
  have cKAda : ∀ x, startsWithStr ("self.keep_alive = " ++ x)
      "self.default_address = " = false :=
    fun x => startsWith_other _ _ x (by decide) (by decide)
  have cPPda : ∀ x, startsWithStr ("self.path_prefix = " ++ x)
      "self.default_address = " = false :=
    fun x => startsWith_other _ _ x (by decide) (by decide)
  have cKApp : ∀ x, startsWithStr ("self.keep_alive = " ++ x)
      "self.path_prefix = " = false :=
    fun x => startsWith_other _ _ x (by decide) (by decide)
  have cDApp : ∀ x, startsWithStr ("self.default_address = " ++ x)
      "self.path_prefix = " = false :=
    fun x => startsWith_other _ _ x (by decide) (by decide)
  have sKA : startsWithStr "super(TestRequests, self).setUp()"
      "self.keep_alive = " = false := by decide
  have sDA : startsWithStr "super(TestRequests, self).setUp()"
      "self.default_address = " = false := by decide
  have sPP : startsWithStr "super(TestRequests, self).setUp()"
      "self.path_prefix = " = false := by decide
  have eKA : startsWithStr "" "self.keep_alive = " = false := by decide
  have eDA : startsWithStr "" "self.default_address = " = false := by decide
  have ePP : startsWithStr "" "self.path_prefix = " = false := by decide
  refine ⟨?_, ?_, ?_⟩ <;>
    cases da <;> cases pp <;>
      simp [genSetupMethod, List.filter_append, List.filter, pKA, pDA, pPP,
        cDAka, cPPka, cKAda, cPPda, cKApp, cDApp, sKA, sDA, sPP, eKA, eDA,
        ePP]

/-- C9 (confirmed): a body-or-headers assertion without an explicit
`regexp` key defaults the flag to `True` and lowers to the regex verb;
only an explicit `regexp: false` yields the plain membership verb.  The
pinned table entries make the verbs concrete. -/
theorem regexp_defaults_to_true (cv : PyVal) (nb : Bool) (subj : String)
    (h : subj = FIELD_BODY ∨ subj = FIELD_HEADERS) :
    addAssertions [.cfg ⟨some cv, some subj, none, some nb⟩] =
      .ok ((normalizeContains cv).map
        (assertLine ((funcTable subj true nb).getD ""))) ∧
    addAssertions [.cfg ⟨some cv, some subj, some false, some nb⟩] =
      .ok ((normalizeContains cv).map
        (assertLine ((funcTable subj false nb).getD ""))) ∧
    funcTable FIELD_BODY true false = some "assertRegexInBody" ∧
    funcTable FIELD_BODY true true = some "assertRegexNotInBody" ∧
    funcTable FIELD_BODY false false = some "assertInBody" ∧
    funcTable FIELD_HEADERS true false = some "assertRegexInHeaders" ∧
    funcTable FIELD_HEADERS true true = some "assertRegexNotInHeaders" ∧
    funcTable FIELD_HEADERS false false = some "assertInHeaders" := by
  refine ⟨?_, ?_, rfl, rfl, rfl, rfl, rfl, rfl⟩ <;>
    rcases h with rfl | rfl <;>
      simp [addAssertions, ensureIsDict, FIELD_BODY, FIELD_HEADERS]

/-- C9 witness: an assertion on body with no `regexp` key and `not` unset
lowers to `assertRegexInBody`, not `assertInBody`. -/
theorem regexp_defaults_to_true_witness :
    addAssertions [.cfg ⟨some (.str "ok"), some FIELD_BODY, none,
        some false⟩] =
      .ok ["self.assertRegexInBody(\x27ok\x27, response)"] := by
  have h := (regexp_defaults_to_true (.str "ok") false FIELD_BODY
    (Or.inl rfl)).1
  rw [h]
  have e : pyRepr (PyVal.str "ok") = "\x27ok\x27" := by
    simp [pyRepr]
    rfl
  simp [normalizeContains, assertLine, funcTable, FIELD_BODY, e]

/-- C4 (confirmed): for a list of plain assertions whose subject is body
or headers and whose `regexp` and `not` flags are explicitly set, the
lowering emits, per assertion in list order, exactly one call per member
of the normalized `contains` list, in member order, with the verb selected
by the fixed `(subject, regex, negate)` table; the eight pinned equations
state the table. -/
theorem assertion_lowering_table (as : List AssertionCfg)
    (h : ∀ a ∈ as, a.contains.isSome ∧
      (a.subject = some FIELD_BODY ∨ a.subject = some FIELD_HEADERS) ∧
      a.regexp.isSome ∧ a.negated.isSome) :
    addAssertions (as.map .cfg) = .ok (as.flatMap fun a =>
      (normalizeContains (a.contains.getD (PyVal.str ""))).map
        (assertLine ((funcTable (a.subject.getD FIELD_BODY)
          (a.regexp.getD true) (a.negated.getD false)).getD ""))) ∧
    funcTable FIELD_BODY false false = some "assertInBody" ∧
    funcTable FIELD_BODY false true = some "assertNotInBody" ∧
    funcTable FIELD_BODY true false = some "assertRegexInBody" ∧
    funcTable FIELD_BODY true true = some "assertRegexNotInBody" ∧
    funcTable FIELD_HEADERS false false = some "assertInHeaders" ∧
    funcTable FIELD_HEADERS false true = some "assertNotInHeaders" ∧
    funcTable FIELD_HEADERS true false = some "assertRegexInHeaders" ∧
    funcTable FIELD_HEADERS true true = some "assertRegexNotInHeaders" := by
  refine ⟨?_, rfl, rfl, rfl, rfl, rfl, rfl, rfl, rfl⟩
  induction as with
  | nil => rfl
  | cons a rest ih =>
    obtain ⟨hc, hs, _, _⟩ := h a (List.mem_cons_self a rest)
    have hrest := ih fun x hx => h x (List.mem_cons_of_mem a hx)
    obtain ⟨cv, hcv⟩ := Option.isSome_iff_exists.mp hc
    rw [List.map_cons, List.flatMap_cons]
    show addAssertions (.cfg a :: rest.map .cfg) = _
    rw [addAssertions, show ensureIsDict (.cfg a) = a from rfl, hcv]
    rw [hrest]
    rcases hs with hs | hs <;>
      simp [hs, hcv, FIELD_BODY, FIELD_HEADERS]

/-- C4 witness: `(body, no, no)` lowers to `assertInBody` and
`(headers, yes, yes)` lowers to `assertRegexNotInHeaders`, one call per
member in list order. -/
theorem assertion_lowering_table_witness :
    addAssertions [.cfg ⟨some (.list [.str "a", .str "b"]), some FIELD_BODY,
        some false, some false⟩,
      .cfg ⟨some (.str "h"), some FIELD_HEADERS, some true, some true⟩] =
      .ok ["self.assertInBody(\x27a\x27, response)",
        "self.assertInBody(\x27b\x27, response)",
        "self.assertRegexNotInHeaders(\x27h\x27, response)"] := by
  have h := (assertion_lowering_table
    [⟨some (.list [.str "a", .str "b"]), some FIELD_BODY, some false,
      some false⟩,
     ⟨some (.str "h"), some FIELD_HEADERS, some true, some true⟩]
    (by
      intro a ha
      rcases List.mem_cons.mp ha with rfl | ha
      · exact ⟨rfl, Or.inl rfl, rfl, rfl⟩
      · rcases List.mem_cons.mp ha with rfl | ha
        · exact ⟨rfl, Or.inr rfl, rfl, rfl⟩
        · cases ha)).1
  simp only [List.map_cons, List.map_nil] at h
  rw [h]
  have ea : pyRepr (PyVal.str "a") = "\x27a\x27" := by simp [pyRepr]; rfl
  have eb : pyRepr (PyVal.str "b") = "\x27b\x27" := by simp [pyRepr]; rfl
  have eh : pyRepr (PyVal.str "h") = "\x27h\x27" := by simp [pyRepr]; rfl
  simp [normalizeContains, assertLine, funcTable, FIELD_BODY, FIELD_HEADERS,
    ea, eb, eh]

/-- C6 (confirmed): the effective headers are the scenario-level headers
updated with the request-level headers; a request-level key overrides a
scenario-level key exactly when the two keys are equal case-sensitively
(the lookup is the plain Python dict lookup).  Case-insensitive matching
is used only by `contentTypeOf`, which returns the value of the last
merged header whose *lowercased* key is `content-type`. -/
theorem header_merge_request_wins (sh rh : List (String × String))
    (k : String) (h1 : (sh.map Prod.fst).Nodup)
    (h2 : (rh.map Prod.fst).Nodup) :
    List.lookup k (effectiveHeaders (some sh) rh) =
      (List.lookup k rh).or (List.lookup k sh) ∧
    ∀ hs : List (String × String), contentTypeOf hs =
      (hs.reverse.find? fun kv => pyLower kv.1 == "content-type").map
        Prod.snd := by
  constructor
  · by_cases hre : rh.isEmpty
    · have : rh = [] := List.isEmpty_iff.mp hre
      subst this
      by_cases hse : sh.isEmpty
      · have : sh = [] := List.isEmpty_iff.mp hse
        subst this
        simp [effectiveHeaders]
      · have he : effectiveHeaders (some sh) [] = dUpdAll [] sh := by
          simp [effectiveHeaders, hse]
        rw [he, lookup_dUpdAll, lookup_reverse_of_nodup sh k h1]
        simp [Option.or_none, List.lookup]
    · by_cases hse : sh.isEmpty
      · have : sh = [] := List.isEmpty_iff.mp hse
        subst this
        have he : effectiveHeaders (some []) rh = dUpdAll [] rh := by
          simp [effectiveHeaders, hre]
        rw [he, lookup_dUpdAll, lookup_reverse_of_nodup rh k h2]
      · have he : effectiveHeaders (some sh) rh =
            dUpdAll (dUpdAll [] sh) rh := by
          simp [effectiveHeaders, hse, hre]
        rw [he, lookup_dUpdAll, lookup_reverse_of_nodup rh k h2,
          lookup_dUpdAll, lookup_reverse_of_nodup sh k h1]
        simp [List.lookup, Option.or_none]
  · intro hs
    unfold contentTypeOf
    rw [lookup_dUpdAll]
    have he : List.lookup "content-type" ([] : List (String × String)) =
      none := rfl
    rw [he, Option.or_none, ← List.map_reverse, lookup_map_lower]

/-- C6 witness: the request-level key `a` does not override the
scenario-level key `A` (case-sensitive merge), so the merged value of `A`
is the scenario one, while `a` keeps the request value; the content-type
lookup finds the scenario `Content-Type` header case-insensitively. -/
theorem header_merge_request_wins_witness :
    List.lookup "A" (effectiveHeaders
      (some [("A", "1"), ("Content-Type", "application/json")])
      [("a", "2")]) = some "1" ∧
    contentTypeOf (effectiveHeaders
      (some [("A", "1"), ("Content-Type", "application/json")])
      [("a", "2")]) = some "application/json" := by
  have h := header_merge_request_wins
    [("A", "1"), ("Content-Type", "application/json")] [("a", "2")] "A"
    (by decide) (by decide)
  constructor
  · exact h.1.trans (by decide)
  · exact (h.2 _).trans (by decide)

/-- C2 (corrected, counterexample): a scenario containing only a non-HTTP
request block compiles *successfully* — the block is skipped with a
warning naming its type; no configuration error is raised and no test
method is emitted for it. -/
theorem non_http_block_not_error_counterexample :
    buildSourceCode otherOnlyScenario =
      .ok ([warnMsg "transaction"], []) := rfl

/-- C2 (corrected, amended claim): whenever compilation succeeds, it has
produced exactly one warning (naming the block type) per non-HTTP entry,
in entry order, and exactly one test method per HTTP entry — a non-HTTP
entry is skipped with a warning, never miscompiled into a method and never
the source of an abort. -/
theorem non_http_blocks_warn_and_skip (s : Scenario) (ws : List String)
    (ms : List (String × List String))
    (h : buildSourceCode s = .ok (ws, ms)) :
    ws = (s.requests.getD []).filterMap (fun e => match e with
      | .other n => some (warnMsg n)
      | .http _ => none) ∧
    ms.length = ((s.requests.getD []).filter fun e => match e with
      | .http _ => true
      | .other _ => false).length := by
  obtain ⟨e1, _, e3⟩ := buildLoop_ok_shape s _ ws ms h
  constructor
  · rw [e1]
    exact enumFrom_filterMap_snd (fun e : RequestEntry => match e with
      | RequestEntry.other n => some (warnMsg n)
      | RequestEntry.http _ => none) 0 _
  · rw [e3]
    exact enumFrom_filter_snd (fun e : RequestEntry => match e with
      | RequestEntry.http _ => true
      | RequestEntry.other _ => false) 0 _

/-- C2 witness: the mixed scenario compiles with one warning for the
`grinder` block and one test method for the HTTP request. -/
theorem non_http_blocks_warn_and_skip_witness :
    mixedOut.1 = [warnMsg "grinder"] ∧ mixedOut.2.length = 1 := by
  have hok : buildSourceCode mixedScenario = .ok (mixedOut.1, mixedOut.2) :=
    rfl
  have h := non_http_blocks_warn_and_skip mixedScenario mixedOut.1
    mixedOut.2 hok
  exact ⟨h.1.trans rfl, h.2.trans rfl⟩

/-- C5 (corrected, amended claim): when compilation succeeds and the
scenario has at most `100000` requests (the capacity of the `%05d` zero
padding), the compiler emits exactly one test method per HTTP-shaped
request, in request order, named `test_` + zero-padded 5-digit enumeration
index + `_` + the URL truncated to 30 characters with non-alphanumeric
runs collapsed to single underscores (`methodName`); the names are
pairwise distinct and strictly increasing in lexicographic order. -/
theorem method_naming (s : Scenario) (ws : List String)
    (ms : List (String × List String))
    (hn : (s.requests.getD []).length ≤ 100000)
    (h : buildSourceCode s = .ok (ws, ms)) :
    ms.map Prod.fst = (enumFrom 0 (s.requests.getD [])).filterMap
      (fun p => match p.2 with
        | .http r => some (methodName p.1 r.url)
        | .other _ => none) ∧
    ms.length = ((s.requests.getD []).filter fun e => match e with
      | .http _ => true
      | .other _ => false).length ∧
    (ms.map Prod.fst).Pairwise strLt ∧
    (ms.map Prod.fst).Nodup := by
  obtain ⟨_, e2, e3⟩ := buildLoop_ok_shape s _ ws ms h
  have hpw : (ms.map Prod.fst).Pairwise strLt := by
    rw [e2, List.pairwise_filterMap]
    refine List.Pairwise.imp_of_mem ?_
      (pairwise_enumFrom_fst 0 (s.requests.getD []))
    intro p q hp hq hlt x hx y hy
    have hqb := mem_enumFrom 0 _ q hq
    have hq100 : q.1 < 100000 := by omega
    cases hp2 : p.2 with
    | other n => rw [hp2] at hx; cases hx
    | http rp =>
      cases hq2 : q.2 with
      | other n => rw [hq2] at hy; cases hy
      | http rq =>
        rw [hp2] at hx
        rw [hq2] at hy
        cases hx
        cases hy
        exact methodName_lt p.1 q.1 rp.url rq.url hlt hq100
  refine ⟨e2, ?_, hpw, ?_⟩
  · rw [e3]
    exact enumFrom_filter_snd (fun e : RequestEntry => match e with
      | RequestEntry.http _ => true
      | RequestEntry.other _ => false) 0 _
  · refine List.Pairwise.imp ?_ hpw
    intro a b hab e
    rw [e] at hab
    exact absurd hab (lt_irrefl b.data)

/-- C5 witness: two requests with identical URLs still get two distinct,
lexicographically ordered method names. -/
theorem method_naming_witness :
    twoReqOut.2.map Prod.fst = ["test_00000_u", "test_00001_u"] ∧
    (twoReqOut.2.map Prod.fst).Pairwise strLt ∧
    (twoReqOut.2.map Prod.fst).Nodup := by
  have hok : buildSourceCode twoReqScenario = .ok (twoReqOut.1, twoReqOut.2) :=
    rfl
  have h := method_naming twoReqScenario twoReqOut.1 twoReqOut.2
    (by decide) hok
  exact ⟨h.1.trans (by decide), h.2.2.1, h.2.2.2⟩

theorem buildLoop_hundredK (n i : Nat) :
    buildLoop hundredKScenario
      (enumFrom i (List.replicate n (RequestEntry.http rPlain))) =
      .ok ([], (List.range n).map fun k =>
        (methodName (i + k) "u", rPlainStmts)) := by
  induction n generalizing i with
  | zero => rfl
  | succ n ih =>
    rw [List.replicate_succ, enumFrom, buildLoop]
    have hbt : buildTestMethod hundredKScenario rPlain = .ok rPlainStmts :=
      rfl
    rw [hbt, ih (i + 1)]
    refine congrArg Except.ok (congrArg (Prod.mk []) ?_)
    rw [List.range_succ_eq_map, List.map_cons, List.map_map]
    congr 1
    refine List.map_congr_left ?_
    intro a _
    show (methodName (i + 1 + a) "u", rPlainStmts) =
      (methodName (i + (a + 1)) "u", rPlainStmts)
    have e : i + 1 + a = i + (a + 1) := by omega
    rw [e]

theorem methodNamesOf_eq (s : Scenario) (ws : List String)
    (ms : List (String × List String))
    (h : buildSourceCode s = .ok (ws, ms)) :
    methodNamesOf s = ms.map Prod.fst := by
  unfold methodNamesOf
  rw [h]

theorem methodNamesOf_hundredK :
    methodNamesOf hundredKScenario =
      (List.range 100001).map fun k => methodName k "u" := by
  have hbs : buildSourceCode hundredKScenario =
      .ok ([], (List.range 100001).map fun k =>
        (methodName (0 + k) "u", rPlainStmts)) := by
    show buildLoop hundredKScenario
      (enumFrom 0 (List.replicate 100001 (RequestEntry.http rPlain))) = _
    exact buildLoop_hundredK 100001 0
  rw [methodNamesOf_eq hundredKScenario _ _ hbs, List.map_map]
  refine List.map_congr_left ?_
  intro a _
  show methodName (0 + a) "u" = methodName a "u"
  rw [Nat.zero_add]

/-- C5 (corrected, counterexample): with 100001 requests the emitted
method names are *not* lexicographically ordered by index — the name at
index 100000 (`test_100000_u`) sorts before the name at index 99999
(`test_99999_u`), because `%05d` overflows its padding. -/
theorem method_name_order_counterexample :
    ¬ (methodNamesOf hundredKScenario).Pairwise strLt := by
  rw [methodNamesOf_hundredK]
  intro h
  rw [List.pairwise_iff_get] at h
  have hlen : ((List.range 100001).map fun k => methodName k "u").length =
      100001 := by
    rw [List.length_map, List.length_range]
  have h1 : (99999 : Nat) <
      ((List.range 100001).map fun k => methodName k "u").length := by
    rw [hlen]; omega
  have h2 : (100000 : Nat) <
      ((List.range 100001).map fun k => methodName k "u").length := by
    rw [hlen]; omega
  have hij : (⟨99999, h1⟩ : Fin _) < ⟨100000, h2⟩ :=
    Fin.mk_lt_mk.mpr (by omega)
  have hlt := h ⟨99999, h1⟩ ⟨100000, h2⟩ hij
  rw [List.get_eq_getElem, List.get_eq_getElem, List.getElem_map,
    List.getElem_map, List.getElem_range, List.getElem_range] at hlt
  have hlt2 : strLt (methodName 99999 "u") (methodName 100000 "u") := hlt
  exact absurd hlt2 (by decide)
